import Mathlib

/-!
# frr_exporter: the scrape handler and the command-line surface

A shallow embedding of `frr_exporter.go` (package `main`): the package-level
flag variables, `initCollectors`, `handler`, `parseCLI` and `main`.

Go pointers are modelled by value.  Package-level variables become the fields
of `Globals`, threaded explicitly through every function.  Library functions
the file calls but does not define and whose behaviour depends on the Go
release (`time.ParseDuration`, the Unicode tables behind `%q`, the pattern
checks of `http.HandleFunc`) are parameters, bundled in `Stdlib`.
-/

namespace FrrExporter

/-! ## The collector package, as far as `frr_exporter.go` uses it -/

/-- The four constructors of the collector package called by `initCollectors`. -/
inductive Constructor where
  | NewBGPCollector
  | NewOSPFCollector
  | NewBGP6Collector
  | NewBFDCollector
  deriving DecidableEq, Repr

/-- Modelled from the spec: the Metadata capability of a protocol collector
(spec 4.1: `name()`, `help()`, `enabledByDefault()`); the collector package
that implements it is not part of the source under study. -/
structure Metadata where
  name : String
  help : String
  enabledByDefault : Bool
  deriving DecidableEq, Repr

/-- The collector package seen from outside: what the object built by each
constructor answers to `Name()`, `Help()` and `EnabledByDefault()`. -/
abbrev Package := Constructor → Metadata

/-- Modelled from the spec: the object returned by one of the constructors.
`builtBy` is the identity of the object (each constructor is called once and
returns its own object); the three methods read `metadata`. -/
structure ProtocolCollector where
  builtBy : Constructor
  metadata : Metadata
  deriving DecidableEq, Repr

/-- Method `Name()` of the CLIHelper interface. -/
def ProtocolCollector.Name (p : ProtocolCollector) : String := p.metadata.name

/-- Method `Help()` of the CLIHelper interface. -/
def ProtocolCollector.Help (p : ProtocolCollector) : String := p.metadata.help

/-- Method `EnabledByDefault()` of the CLIHelper interface. -/
def ProtocolCollector.EnabledByDefault (p : ProtocolCollector) : Bool :=
  p.metadata.enabledByDefault

/-- Call of a constructor of the collector package. -/
def Package.construct (pkg : Package) (k : Constructor) : ProtocolCollector :=
  { builtBy := k, metadata := pkg k }

/-- Modelled from the spec: the struct `collector.Collector`, with the five
fields `frr_exporter.go` reads and writes.  `Enabled` is the `*bool` field:
`none` is the nil pointer, `some b` a pointer to a flag cell holding `b`.
Every flag owns its cell and no two collectors share one, so writing the cell
is updating the field. -/
structure Collector where
  Name : String
  PromCollector : ProtocolCollector
  Errors : ProtocolCollector
  CLIHelper : ProtocolCollector
  Enabled : Option Bool
  deriving DecidableEq, Repr

/-! ## kingpin flags -/

/-- Type of the value a flag parses into. -/
inductive FlagKind where
  | string
  | bool
  deriving DecidableEq, Repr

/-- A flag as declared by `kingpin.Flag(name, help).Default(d)` followed by
`.String()` or `.Bool()`. -/
structure FlagClause where
  name : String
  help : String
  defaultValue : String
  kind : FlagKind
  deriving DecidableEq, Repr

/-- Flag behind the variable `listenAddress`. -/
def listenAddressFlag : FlagClause :=
  { name := "web.listen-address"
    help := "Address on which to expose metrics and web interface."
    defaultValue := ":9342"
    kind := .string }

/-- Flag behind the variable `telemetryPath`. -/
def telemetryPathFlag : FlagClause :=
  { name := "web.telemetry-path"
    help := "Path under which to expose metrics."
    defaultValue := "/metrics"
    kind := .string }

/-- Flag behind the variable `frrVTYSHPath`. -/
def frrVTYSHPathFlag : FlagClause :=
  { name := "frr.vtysh.path"
    help := "Path of vtysh."
    defaultValue := "/usr/bin/vtysh"
    kind := .string }

/-- Flag behind the variable `frrVTYSHTimeout`. -/
def frrVTYSHTimeoutFlag : FlagClause :=
  { name := "frr.vtysh.timeout"
    help := "The timeout when running vtysh commends (default 20s)."
    defaultValue := "20s"
    kind := .string }

/-- The flags declared by the `var` block, in declaration order. -/
def fixedFlags : List FlagClause :=
  [listenAddressFlag, telemetryPathFlag, frrVTYSHPathFlag, frrVTYSHTimeoutFlag]

/-- The package-level variables.  The four strings are the cells behind the
`*string` flag variables (empty until `kingpin.Parse` fills them);
`commandLine` is the list of flags declared on `kingpin.CommandLine` by this
file. -/
structure Globals where
  listenAddress : String
  telemetryPath : String
  frrVTYSHPath : String
  frrVTYSHTimeout : String
  collectors : List Collector
  commandLine : List FlagClause
  deriving DecidableEq, Repr

/-- State of the package variables when `main` starts: the `var` block has
declared the four flags and `collectors` is the empty slice. -/
def Globals.initial : Globals :=
  { listenAddress := ""
    telemetryPath := ""
    frrVTYSHPath := ""
    frrVTYSHTimeout := ""
    collectors := []
    commandLine := fixedFlags }

/-! ## initCollectors -/

/-- The composite literal `&collector.Collector{Name: x.Name(), PromCollector: x,
Errors: x, CLIHelper: x}`; `Enabled` is left at its zero value, nil. -/
def newDescriptor (x : ProtocolCollector) : Collector :=
  { Name := x.Name
    PromCollector := x
    Errors := x
    CLIHelper := x
    Enabled := none }

/-- Function `initCollectors`: four appends to the global slice. -/
def initCollectors (pkg : Package) (collectors : List Collector) : List Collector :=
  let bgp := pkg.construct .NewBGPCollector
  let collectors := collectors ++ [newDescriptor bgp]
  let ospf := pkg.construct .NewOSPFCollector
  let collectors := collectors ++ [newDescriptor ospf]
  let bgp6 := pkg.construct .NewBGP6Collector
  let collectors := collectors ++ [newDescriptor bgp6]
  let bfd := pkg.construct .NewBFDCollector
  let collectors := collectors ++ [newDescriptor bfd]
  collectors

/-! ## Standard-library functions used by `parseCLI` and `handler` -/

/-- A `time.Duration`: a number of nanoseconds. -/
abbrev Duration := Int

/-- The library behaviour the file depends on without defining it.
`ParseDuration` is `time.ParseDuration`, returning the duration or the text of
the error.  `IsPrintTable` is `strconv.IsPrint` on the runes above U+00FF,
where Go consults its Unicode tables.  `HandleFuncPanics registered pattern`
tells whether `http.HandleFunc(pattern, f)` panics on the default mux when the
patterns `registered` are already there (an empty or malformed pattern, a
pattern that conflicts with a registered one). -/
structure Stdlib where
  ParseDuration : String → Except String Duration
  IsPrintTable : Char → Bool
  HandleFuncPanics : List String → String → Bool

/-- Function `strconv.FormatBool`. -/
def FormatBool (b : Bool) : String :=
  if b then "true" else "false"

/-- Function `strconv.ParseBool`, which kingpin uses for the value of a boolean
flag.  The error is reduced to the text of `ErrSyntax`. -/
def ParseBool (str : String) : Except String Bool :=
  if str = "1" ∨ str = "t" ∨ str = "T" ∨ str = "TRUE" ∨ str = "true" ∨ str = "True" then
    .ok true
  else if str = "0" ∨ str = "f" ∨ str = "F" ∨ str = "FALSE" ∨ str = "false" ∨ str = "False" then
    .ok false
  else
    .error "invalid syntax"

/-- Function `strconv.IsPrint`: the Latin-1 fast path, then the tables. -/
def IsPrint (table : Char → Bool) (r : Char) : Bool :=
  if r.toNat ≤ 0xFF then
    if 0x20 ≤ r.toNat ∧ r.toNat ≤ 0x7E then true
    else if 0xA1 ≤ r.toNat ∧ r.toNat ≤ 0xFF then r.toNat != 0xAD
    else false
  else table r

/-- The digit string `lowerhex` of package strconv, indexed. -/
def lowerhex (n : Nat) : Char :=
  "0123456789abcdef".toList.getD n '0'

/-- The loop `for s := w; s >= 0; s -= 4` of `appendEscapedRune`, writing the
`w` low hexadecimal digits of `n`, most significant first. -/
def hexDigits : Nat → Nat → List Char
  | 0, _ => []
  | w + 1, n => lowerhex ((n >>> (4 * w)) &&& 0xF) :: hexDigits w n

/-- Function `appendEscapedRune` of package strconv for the double quote, as
called by `strconv.Quote`.  A `Char` is always a valid rune, so the branch for
invalid runes does not arise. -/
def appendEscapedRune (table : Char → Bool) (r : Char) : List Char :=
  if r = '"' ∨ r = '\\' then ['\\', r]
  else if IsPrint table r then [r]
  else if r.toNat = 7 then ['\\', 'a']
  else if r.toNat = 8 then ['\\', 'b']
  else if r.toNat = 12 then ['\\', 'f']
  else if r.toNat = 10 then ['\\', 'n']
  else if r.toNat = 13 then ['\\', 'r']
  else if r.toNat = 9 then ['\\', 't']
  else if r.toNat = 11 then ['\\', 'v']
  else if r.toNat < 0x20 ∨ r.toNat = 0x7F then '\\' :: 'x' :: hexDigits 2 r.toNat
  else if r.toNat < 0x10000 then '\\' :: 'u' :: hexDigits 4 r.toNat
  else '\\' :: 'U' :: hexDigits 8 r.toNat

/-- Function `strconv.Quote`, the rendering of a string under the verb `%q`. -/
def Quote (table : Char → Bool) (s : String) : String :=
  String.mk ('"' :: (s.toList.flatMap (appendEscapedRune table) ++ ['"']))

/-- The message built by
`log.Fatalf("invalid frr.vtysh.timeout flag %q: %s", *frrVTYSHTimeout, err)`. -/
def fatalMessage (lib : Stdlib) (value err : String) : String :=
  "invalid frr.vtysh.timeout flag " ++ Quote lib.IsPrintTable value ++ ": " ++ err

/-! ## kingpin.Parse -/

/-- The two requests kingpin answers itself and then ends the process with:
the help flag (`kingpin.HelpFlag`, given the short form `-h` by `parseCLI`) and
the flag `kingpin.Version` adds. -/
inductive Builtin where
  | help
  | version
  deriving DecidableEq, Repr

/-- What the user wrote on the command line, after kingpin has split it: the
values given explicitly to string flags and to boolean flags (`--name` gives
`true`, `--no-name` gives `false`), by flag name, and the first of `--help`,
`-h` and `--version`, if any.  Command lines kingpin rejects for their form (a
flag nobody declared, a value the logging flags do not take) are not values of
this type. -/
structure CommandLine where
  strings : String → Option String
  bools : String → Option Bool
  builtin : Option Builtin

/-- Value of a string flag after `kingpin.Parse`: the explicit value, else the
declared default. -/
def CommandLine.stringValue (cmd : CommandLine) (f : FlagClause) : String :=
  match cmd.strings f.name with
  | some v => v
  | none => f.defaultValue

/-- Value of a boolean flag after `kingpin.Parse`: the explicit value, else the
declared default string parsed by `ParseBool`; a default that does not parse
makes `Parse` fail. -/
def CommandLine.boolValue (cmd : CommandLine) (f : FlagClause) : Except String Bool :=
  match cmd.bools f.name with
  | some b => .ok b
  | none => ParseBool f.defaultValue

/-- How the process ends before serving.  `help` and `version`: kingpin has
answered the request and exits with status 0.  `usage`: `kingpin.Parse` failed
and exits with status 1 and the message.  `fatal`: `log.Fatalf` exits with
status 1 and the message. -/
inductive Exit where
  | help
  | version
  | usage (msg : String)
  | fatal (msg : String)
  deriving DecidableEq, Repr

/-- The duplicate check kingpin runs over the declared flags, in declaration
order, when `Parse` starts: the first name that was already seen. -/
def duplicateFlag : List String → List String → Option String
  | _, [] => none
  | seen, name :: rest =>
    if name ∈ seen then some name else duplicateFlag (name :: seen) rest

/-! ## parseCLI -/

/-- Body of the loop of `parseCLI` for one collector: the flag it declares. -/
def collectorFlag (collector : Collector) : FlagClause :=
  let defaultState := "disabled"
  let enabledByDefault := collector.CLIHelper.EnabledByDefault
  let defaultState := if enabledByDefault == true then "enabled" else defaultState
  let flagName := "collector." ++ collector.CLIHelper.Name
  let helpString := collector.CLIHelper.Help ++ " (default: " ++ defaultState ++ ")."
  { name := flagName
    help := helpString
    defaultValue := FormatBool enabledByDefault
    kind := .bool }

/-- The loop of `parseCLI`: every collector declares its flag, and its
`Enabled` field receives the pointer `.Bool()` returns, a fresh cell holding
`false`.  The result pairs each flag with the collector whose cell it owns. -/
def declareCollectorFlags : List Collector → List (FlagClause × Collector)
  | [] => []
  | collector :: rest =>
    (collectorFlag collector, { collector with Enabled := some false })
      :: declareCollectorFlags rest

/-- The part of `kingpin.Parse` that fills the cells of the collector flags,
in declaration order; the first default that does not parse stops it.  Parse
writes the value into the cell of the flag: the collector sees it through the
pointer the loop stored in `Enabled`, and a nil `Enabled` stays nil. -/
def parseCollectorFlags (cmd : CommandLine) :
    List (FlagClause × Collector) → Except String (List Collector)
  | [] => .ok []
  | (flag, collector) :: rest =>
    match cmd.boolValue flag with
    | .error msg => .error msg
    | .ok b =>
      match parseCollectorFlags cmd rest with
      | .error msg => .error msg
      | .ok cs => .ok ({ collector with Enabled := collector.Enabled.map fun _ => b } :: cs)

/-- Function `parseCLI`.  `kingpin.Parse` first checks the declared flags for
duplicate names, then answers `--help` or `--version`, then fills the cells;
each of the three can end the process.  The flags the libraries declare
(`log.AddFlags`, `kingpin.Version`, the help flag) are not listed in
`commandLine`: their names do not start with `collector.` and are none of the
four of the `var` block. -/
def parseCLI (lib : Stdlib) (g : Globals) (cmd : CommandLine) : Except Exit Globals :=
  let declared := declareCollectorFlags g.collectors
  let commandLine := g.commandLine ++ declared.map Prod.fst
  -- kingpin.Parse()
  match duplicateFlag [] (commandLine.map fun f => f.name) with
  | some name => .error (.usage ("duplicate long flag --" ++ name))
  | none =>
    match cmd.builtin with
    | some .help => .error .help
    | some .version => .error .version
    | none =>
      match parseCollectorFlags cmd declared with
      | .error msg => .error (.usage msg)
      | .ok collectors =>
        let g : Globals :=
          { listenAddress := cmd.stringValue listenAddressFlag
            telemetryPath := cmd.stringValue telemetryPathFlag
            frrVTYSHPath := cmd.stringValue frrVTYSHPathFlag
            frrVTYSHTimeout := cmd.stringValue frrVTYSHTimeoutFlag
            collectors := collectors
            commandLine := commandLine }
        match lib.ParseDuration g.frrVTYSHTimeout with
        | .error err => .error (.fatal (fatalMessage lib g.frrVTYSHTimeout err))
        | .ok _ => .ok g

/-! ## main -/

/-- Outcome of `main`: the process exits during startup, or one of the two
`http.HandleFunc` calls panics on the pattern named, or it reaches
`http.ListenAndServe` with `handler` installed on `metricsPath` and the
listener on `address`. -/
inductive Process where
  | exited (e : Exit)
  | panicked (pattern : String)
  | serving (g : Globals) (metricsPath : String) (address : String)

/-- Function `main`, up to the call of `http.ListenAndServe`. -/
def main (lib : Stdlib) (pkg : Package) (cmd : CommandLine) : Process :=
  let g := Globals.initial
  let g := { g with collectors := initCollectors pkg g.collectors }
  match parseCLI lib g cmd with
  | .error e => .exited e
  | .ok g =>
    -- http.HandleFunc(*telemetryPath, handler)
    if lib.HandleFuncPanics [] g.telemetryPath then .panicked g.telemetryPath
    -- http.HandleFunc("/", ...)
    else if lib.HandleFuncPanics [g.telemetryPath] "/" then .panicked "/"
    else .serving g g.telemetryPath g.listenAddress

/-! ## The exporter and the registry -/

/-- Modelled from the spec: the exporter built by `collector.NewExporter`, with
the list it was given and the two settings `handler` writes.  `request` is the
identity of the object: the number of the request whose `handler` call
allocated it. -/
structure Exporter where
  request : Nat
  collectors : List Collector
  vtyshPath : String
  vtyshTimeout : Duration
  deriving DecidableEq, Repr

/-- Modelled from the spec: function `collector.NewExporter`. -/
def NewExporter (request : Nat) (collectors : List Collector) : Exporter :=
  { request := request, collectors := collectors, vtyshPath := "", vtyshTimeout := 0 }

/-- Modelled from the spec: method `SetVTYSHPath`. -/
def Exporter.SetVTYSHPath (e : Exporter) (path : String) : Exporter :=
  { e with vtyshPath := path }

/-- Modelled from the spec: method `SetVTYSHTimeout`. -/
def Exporter.SetVTYSHTimeout (e : Exporter) (timeout : Duration) : Exporter :=
  { e with vtyshTimeout := timeout }

/-- A `prometheus.Registry`: the collectors registered so far and the
identifiers of the descriptors they announced.  `request` is the identity of
the object, as for `Exporter`. -/
structure Registry where
  request : Nat
  collectors : List Exporter
  descIDs : List String
  deriving DecidableEq, Repr

/-- Function `prometheus.NewRegistry`: a registry with nothing registered. -/
def NewRegistry (request : Nat) : Registry :=
  { request := request, collectors := [], descIDs := [] }

/-- Method `Register` of a registry, for the faults that depend on what the
registry already holds: a descriptor of the new collector that is already
present makes the registration fail and leaves the registry as it was;
otherwise the collector and its descriptors are added.  `describe` gives the
descriptor identifiers the collector announces. -/
def Registry.Register (describe : Exporter → List String) (r : Registry) (c : Exporter) :
    Registry × Option String :=
  match (describe c).find? (fun d => d ∈ r.descIDs) with
  | some d => (r, some ("descriptor " ++ d ++ " already exists"))
  | none =>
    ({ r with collectors := r.collectors ++ [c], descIDs := r.descIDs ++ describe c }, none)

/-- A metric sample as it is gathered and served: the name of its family, the
values of its labels, and its value.  Samples are taken to be well formed, so
the checks `Gather` makes on the form of a sample (descriptor, type, label
names) are passed. -/
structure Metric where
  name : String
  labels : List String
  value : Int
  deriving DecidableEq, Repr

/-- The identity of a sample for `Gather`: name and label values. -/
def Metric.key (m : Metric) : String × List String := (m.name, m.labels)

/-- Modelled from the spec: what `collect(runner)` of the Emitter capability
returns (spec 4.1, 4.4): the samples, the outcome, and the time it took. -/
structure CollectResult where
  samples : List Metric
  success : Bool
  duration : Int
  deriving DecidableEq, Repr

/-- What lies outside `frr_exporter.go` during one request: the descriptors an
exporter announces, the result of each collector's `collect(runner)`, the
names the exporter gives its success gauge and its duration sample (both
labelled by the collector's name), and the content of
`prometheus.DefaultGatherer`. -/
structure Env where
  describe : Exporter → List String
  emit : Collector → CollectResult
  successName : String
  durationName : String
  defaultGatherer : List Metric

/-- Modelled from the spec: the success gauge of a collector (spec 4.4, steps
3c and 3d), 1 on success and 0 on failure. -/
def successSample (env : Env) (c : Collector) : Metric :=
  { name := env.successName
    labels := [c.Name]
    value := if (env.emit c).success then 1 else 0 }

/-- Modelled from the spec: the duration sample of a collector (spec 4.4). -/
def durationSample (env : Env) (c : Collector) : Metric :=
  { name := env.durationName, labels := [c.Name], value := (env.emit c).duration }

/-- Modelled from the spec: step 3 of the Exporter algorithm (spec 4.4), the
loop over the enabled descriptors in order; `sent` is what has been sent to
the registry so far.  On success the samples are merged, then the success
gauge with value 1 and the duration sample; on failure no sample of the
collector is merged, the success gauge with value 0 and the duration sample
are recorded, and the loop goes on with the next collector. -/
def Exporter.collectLoop (env : Env) : List Collector → List Metric → List Metric
  | [], sent => sent
  | c :: rest, sent =>
    let r := env.emit c
    if r.success then
      Exporter.collectLoop env rest
        (sent ++ r.samples ++ [successSample env c, durationSample env c])
    else
      Exporter.collectLoop env rest (sent ++ [successSample env c, durationSample env c])

/-- Modelled from the spec: method `Collect` of the exporter, one scrape
(spec 4.4, steps 2, 3 and 5). -/
def Exporter.Collect (env : Env) (e : Exporter) : List Metric :=
  Exporter.collectLoop env e.collectors []

/-- The duplicate check of `Gather`: of the samples that share a name and
label values, the first one is kept.  `seen` holds the identities met so far. -/
def keepFirst : List (String × List String) → List Metric → List Metric
  | _, [] => []
  | seen, m :: rest =>
    if m.key ∈ seen then keepFirst seen rest else m :: keepFirst (m.key :: seen) rest

/-- The samples the duplicate check of `Gather` drops, each reported as an
error. -/
def collectedBefore : List (String × List String) → List Metric → List Metric
  | _, [] => []
  | seen, m :: rest =>
    if m.key ∈ seen then m :: collectedBefore seen rest
    else collectedBefore (m.key :: seen) rest

/-- Go's `<` on strings, on the lists of their runes: the comparison is by
bytes, which on UTF-8 is the order of the code points. -/
def stringLess : List Char → List Char → Bool
  | [], [] => false
  | [], _ :: _ => true
  | _ :: _, [] => false
  | a :: as, b :: bs => if a = b then stringLess as bs else decide (a.toNat < b.toNat)

/-- The order of label values `Gather` sorts the samples of one family by:
fewer labels first, then the values compared in turn. -/
def labelsLess : List String → List String → Bool
  | a :: as, b :: bs => if a = b then labelsLess as bs else stringLess a.data b.data
  | _, _ => false

/-- The order of the samples in what `Gather` returns: families by name, the
samples of a family by label values. -/
def Metric.less (a b : Metric) : Bool :=
  if a.name = b.name then
    if a.labels.length = b.labels.length then labelsLess a.labels b.labels
    else decide (a.labels.length < b.labels.length)
  else stringLess a.name.data b.name.data

/-- The sorting `Gather` ends with. -/
def sortMetrics (l : List Metric) : List Metric :=
  l.insertionSort fun a b => b.less a = false

/-- The error `Gather` reports for a sample it drops as a duplicate. -/
def duplicateError (m : Metric) : String :=
  "collected metric " ++ m.name ++ " was collected before with the same name and label values"

/-- What the collectors registered in a registry send when they are collected,
in the order they send it. -/
def Registry.collected (env : Env) (r : Registry) : List Metric :=
  r.collectors.flatMap (Exporter.Collect env)

/-- Method `Gather` of a registry: every registered collector is collected,
duplicates are dropped and reported, and the samples are returned sorted,
with the errors. -/
def Registry.Gather (env : Env) (r : Registry) : List Metric × List String :=
  (sortMetrics (keepFirst [] (r.collected env)),
    (collectedBefore [] (r.collected env)).map duplicateError)

/-- Method `Gather` of `prometheus.Gatherers`: the results of the gatherers are
merged in the order of the gatherers, a sample already gathered is dropped and
reported, and the samples are returned sorted, with all errors. -/
def Gatherers.Gather (results : List (List Metric × List String)) :
    List Metric × List String :=
  (sortMetrics (keepFirst [] (results.flatMap fun r => r.1)),
    results.flatMap (fun r => r.2)
      ++ (collectedBefore [] (results.flatMap fun r => r.1)).map duplicateError)

/-- The values of `promhttp.HandlerErrorHandling`. -/
inductive HandlerErrorHandling where
  | HTTPErrorOnError
  | ContinueOnError
  | PanicOnError
  deriving DecidableEq, Repr

/-- The field of `promhttp.HandlerOpts` that decides what is served. -/
structure HandlerOpts where
  ErrorHandling : HandlerErrorHandling
  deriving DecidableEq, Repr

/-- What a request is answered with: the samples in exposition format, an HTTP
error carrying the errors of `Gather`, or a panic. -/
inductive Response where
  | metrics (body : List Metric)
  | httpError (errors : List String)
  | panicked (errors : List String)
  deriving DecidableEq, Repr

/-- The call `promhttp.HandlerFor(gatheres, handlerOpts).ServeHTTP(w, r)`, given
what `gatheres.Gather()` returned.  Without errors the samples are served.
With errors, `ContinueOnError` serves the samples that were gathered, unless
there are none. -/
def ServeHTTP (handlerOpts : HandlerOpts) (gathered : List Metric × List String) :
    Response :=
  if gathered.2 = [] then .metrics gathered.1
  else
    match handlerOpts.ErrorHandling with
    | .PanicOnError => .panicked gathered.2
    | .ContinueOnError =>
      if gathered.1 = [] then .httpError gathered.2 else .metrics gathered.1
    | .HTTPErrorOnError => .httpError gathered.2

/-! ## handler -/

/-- A run-time panic of `handler`. -/
inductive Panic where
  | nilDereference
  deriving DecidableEq, Repr

/-- The loop of `handler` over `collectors`; `enabledCollectors` is the slice
built so far.  Reading `*collector.Enabled` through a nil pointer panics. -/
def enabledLoop : List Collector → List Collector → Except Panic (List Collector)
  | [], enabledCollectors => .ok enabledCollectors
  | collector :: rest, enabledCollectors =>
    match collector.Enabled with
    | none => .error .nilDereference
    | some true => enabledLoop rest (enabledCollectors ++ [collector])
    | some false => enabledLoop rest enabledCollectors

/-- What one call of `handler` builds: the registry as `NewRegistry` returned
it, the list passed to `NewExporter`, the exporter after the two setters, the
registry after `Register` with the error that call returned (and `handler`
drops), what the registry's collectors sent while the request was served, and
the response. -/
structure Scrape where
  allocated : Registry
  enabledCollectors : List Collector
  exporter : Exporter
  registry : Registry
  registerError : Option String
  collected : List Metric
  response : Response
  deriving DecidableEq, Repr

/-- Function `handler`, for the request numbered `request`.  It returns the
package variables as it leaves them, and what it built. -/
def handler (lib : Stdlib) (env : Env) (request : Nat) (g : Globals) :
    Except Panic (Globals × Scrape) :=
  let registry := NewRegistry request
  match enabledLoop g.collectors [] with
  | .error p => .error p
  | .ok enabledCollectors =>
    let ne := NewExporter request enabledCollectors
    let ne := ne.SetVTYSHPath g.frrVTYSHPath
    -- error checking is done as part of parseCLI
    let frrTimeout : Duration :=
      match lib.ParseDuration g.frrVTYSHTimeout with
      | .ok d => d
      | .error _ => 0
    let ne := ne.SetVTYSHTimeout frrTimeout
    -- registry.Register(ne): the registry is updated, the error is dropped
    let registered := registry.Register env.describe ne
    -- prometheus.DefaultGatherer gathers its content without error
    let gatheres := [(env.defaultGatherer, []), registered.1.Gather env]
    let handlerOpts : HandlerOpts := { ErrorHandling := .ContinueOnError }
    .ok (g,
      { allocated := registry
        enabledCollectors := enabledCollectors
        exporter := ne
        registry := registered.1
        registerError := registered.2
        collected := registered.1.collected env
        response := ServeHTTP handlerOpts (Gatherers.Gather gatheres) })

/-- The first `n` requests served one after the other, numbered from `first`:
each call of `handler` starts from the package variables the previous one
left. -/
def serve (lib : Stdlib) (env : Nat → Env) :
    Nat → Nat → Globals → Except Panic (Globals × List Scrape)
  | 0, _, g => .ok (g, [])
  | n + 1, first, g =>
    match handler lib (env first) first g with
    | .error p => .error p
    | .ok (g1, scrape) =>
      match serve lib env n (first + 1) g1 with
      | .error p => .error p
      | .ok (g2, scrapes) => .ok (g2, scrape :: scrapes)

/-! ## What `kingpin.Parse` leaves in the package variables -/

/-- The value `kingpin.Parse` gives the flag of a collector: what the command
line says, else the collector's declared default. -/
def enablement (cmd : CommandLine) (c : Collector) : Bool :=
  match cmd.bools (collectorFlag c).name with
  | some b => b
  | none => c.CLIHelper.EnabledByDefault

/-- The package variables after a `kingpin.Parse` that succeeded, in closed
form; `parseCLI_eq` proves that this is what `parseCLI` returns. -/
def parsedGlobals (g : Globals) (cmd : CommandLine) : Globals :=
  { listenAddress := cmd.stringValue listenAddressFlag
    telemetryPath := cmd.stringValue telemetryPathFlag
    frrVTYSHPath := cmd.stringValue frrVTYSHPathFlag
    frrVTYSHTimeout := cmd.stringValue frrVTYSHTimeoutFlag
    collectors := g.collectors.map fun c => { c with Enabled := some (enablement cmd c) }
    commandLine := g.commandLine ++ g.collectors.map collectorFlag }

/-! ## What `handler` builds -/

/-- The timeout `handler` computes: the parsed duration, or the zero duration
when the parse fails and its error is dropped. -/
def handlerTimeout (lib : Stdlib) (g : Globals) : Duration :=
  match lib.ParseDuration g.frrVTYSHTimeout with
  | .ok d => d
  | .error _ => 0

/-- The exporter `handler` builds when no `Enabled` pointer is nil. -/
def builtExporter (lib : Stdlib) (request : Nat) (g : Globals) : Exporter :=
  { request := request
    collectors := g.collectors.filter (fun c => c.Enabled = some true)
    vtyshPath := g.frrVTYSHPath
    vtyshTimeout := handlerTimeout lib g }

/-- What `handler` builds when no `Enabled` pointer is nil, in closed form;
`handler_eq` proves that this is what `handler` returns. -/
def builtScrape (lib : Stdlib) (env : Env) (request : Nat) (g : Globals) : Scrape :=
  { allocated := NewRegistry request
    enabledCollectors := g.collectors.filter (fun c => c.Enabled = some true)
    exporter := builtExporter lib request g
    registry := ((NewRegistry request).Register env.describe (builtExporter lib request g)).1
    registerError :=
      ((NewRegistry request).Register env.describe (builtExporter lib request g)).2
    collected :=
      ((NewRegistry request).Register env.describe
        (builtExporter lib request g)).1.collected env
    response := ServeHTTP { ErrorHandling := .ContinueOnError }
      (Gatherers.Gather [(env.defaultGatherer, []),
        ((NewRegistry request).Register env.describe
          (builtExporter lib request g)).1.Gather env]) }

/-! ## Concrete instances -/

/-- A decimal digit string read as a number. -/
def decimalValue (ds : List Char) : Nat :=
  ds.foldl (fun n c => 10 * n + (c.toNat - 48)) 0

/-- An instance of `time.ParseDuration` restricted to whole seconds: it accepts
a non-empty digit string followed by `s` whose value fits a `Duration`, and
rejects everything else with the message current Go releases give for an
invalid duration, the input in quoted form. -/
def secondsParseDuration (s : String) : Except String Duration :=
  match s.toList.reverse with
  | 's' :: ds =>
    if ds ≠ [] ∧ ds.all Char.isDigit = true ∧ decimalValue ds.reverse ≤ 9223372036 then
      .ok ((decimalValue ds.reverse : Nat) * 1000000000)
    else .error ("time: invalid duration " ++ Quote (fun _ => true) s)
  | _ => .error ("time: invalid duration " ++ Quote (fun _ => true) s)

/-- A library instance with `secondsParseDuration`, and a mux that panics on
the empty pattern and on a pattern it already holds. -/
def sampleLib : Stdlib :=
  { ParseDuration := secondsParseDuration
    IsPrintTable := fun _ => true
    HandleFuncPanics := fun registered pattern => pattern = "" || pattern ∈ registered }

/-- The collector package with the names and defaults of the FRR collectors. -/
def samplePackage : Package
  | .NewBGPCollector => { name := "bgp", help := "Collect BGP Metrics", enabledByDefault := true }
  | .NewOSPFCollector => { name := "ospf", help := "Collect OSPF Metrics", enabledByDefault := true }
  | .NewBGP6Collector => { name := "bgp6", help := "Collect BGP IPv6 Metrics", enabledByDefault := true }
  | .NewBFDCollector => { name := "bfd", help := "Collect BFD Metrics", enabledByDefault := false }

/-- The empty command line: no flag is mentioned. -/
def noArguments : CommandLine :=
  { strings := fun _ => none, bools := fun _ => none, builtin := none }

/-- The command line `--help`. -/
def helpArgument : CommandLine :=
  { strings := fun _ => none, bools := fun _ => none, builtin := some .help }

/-- A command line that sets only `frr.vtysh.timeout`. -/
def timeoutArgument (value : String) : CommandLine :=
  { strings := fun name => if name = "frr.vtysh.timeout" then some value else none
    bools := fun _ => none
    builtin := none }

/-- An environment in which the collector named `ospf` fails, leaving a
partial sample behind, and every other collector succeeds with one sample. -/
def sampleEnv : Env :=
  { describe := fun _ => ["frr_collector_up", "frr_scrape_duration_seconds"]
    emit := fun c =>
      if c.Name = "ospf" then
        { samples := [{ name := "frr_ospf_partial", labels := [], value := 7 }]
          success := false
          duration := 20 }
      else
        { samples := [{ name := "frr_" ++ c.Name ++ "_sample", labels := [], value := 3 }]
          success := true
          duration := 1 }
    successName := "frr_collector_up"
    durationName := "frr_scrape_duration_seconds"
    defaultGatherer := [{ name := "frr_exporter_build_info", labels := [], value := 1 }] }

/-- Collector A of the scenario of the spec: enabled. -/
def collectorA : Collector :=
  { newDescriptor (samplePackage.construct .NewBGPCollector) with Enabled := some true }

/-- Collector B of the scenario of the spec: enabled. -/
def collectorB : Collector :=
  { newDescriptor (samplePackage.construct .NewOSPFCollector) with Enabled := some true }

/-- Collector C of the scenario of the spec: disabled. -/
def collectorC : Collector :=
  { newDescriptor (samplePackage.construct .NewBFDCollector) with Enabled := some false }

/-- Package variables with A, B and C registered in that order. -/
def scenario : Globals :=
  { listenAddress := ":9342"
    telemetryPath := "/metrics"
    frrVTYSHPath := "/usr/bin/vtysh"
    frrVTYSHTimeout := "20s"
    collectors := [collectorA, collectorB, collectorC]
    commandLine := fixedFlags ++ [collectorA, collectorB, collectorC].map collectorFlag }

/-- Package variables as `main` leaves them on the FRR collectors started
without arguments. -/
def started : Globals :=
  parsedGlobals { Globals.initial with collectors := initCollectors samplePackage [] }
    noArguments


/-! ## Lemmas on the loops -/

theorem enabledLoop_eq (cs : List Collector) (acc : List Collector)
    (h : ∀ c ∈ cs, c.Enabled ≠ none) :
    enabledLoop cs acc = .ok (acc ++ cs.filter (fun c => c.Enabled = some true)) := by
  induction cs generalizing acc with
  | nil => simp [enabledLoop]
  | cons c rest ih =>
    have hrest : ∀ d ∈ rest, d.Enabled ≠ none := fun d hd => h d (List.mem_cons_of_mem _ hd)
    have hc : c.Enabled ≠ none := h c (List.mem_cons_self _ _)
    cases hE : c.Enabled with
    | none => exact absurd hE hc
    | some b =>
      cases b with
      | true => simp [enabledLoop, hE, ih _ hrest, List.filter_cons]
      | false => simp [enabledLoop, hE, ih _ hrest, List.filter_cons]

theorem handler_eq (lib : Stdlib) (env : Env) (request : Nat) (g : Globals)
    (h : ∀ c ∈ g.collectors, c.Enabled ≠ none) :
    handler lib env request g = .ok (g, builtScrape lib env request g) := by
  unfold handler
  rw [enabledLoop_eq g.collectors [] h]
  simp [NewExporter, Exporter.SetVTYSHPath, Exporter.SetVTYSHTimeout, builtScrape,
    builtExporter, handlerTimeout]

theorem collectorFlag_name (c : Collector) :
    (collectorFlag c).name = "collector." ++ c.CLIHelper.Name := rfl

theorem collectorFlag_name_data (c : Collector) :
    (collectorFlag c).name.data
      = 'c' :: 'o' :: 'l' :: 'l' :: 'e' :: 'c' :: 't' :: 'o' :: 'r' :: '.'
          :: c.CLIHelper.Name.data := by
  rw [collectorFlag_name, String.data_append]
  rfl

theorem ParseBool_FormatBool (b : Bool) : ParseBool (FormatBool b) = .ok b := by
  cases b <;> rfl

theorem boolValue_collectorFlag (cmd : CommandLine) (c : Collector) :
    cmd.boolValue (collectorFlag c) = .ok (enablement cmd c) := by
  unfold CommandLine.boolValue enablement
  cases cmd.bools (collectorFlag c).name with
  | some b => rfl
  | none => exact ParseBool_FormatBool _

theorem declareCollectorFlags_fst (cs : List Collector) :
    (declareCollectorFlags cs).map Prod.fst = cs.map collectorFlag := by
  induction cs with
  | nil => rfl
  | cons c rest ih => simp [declareCollectorFlags, ih]

theorem parseCollectorFlags_declare (cmd : CommandLine) (cs : List Collector) :
    parseCollectorFlags cmd (declareCollectorFlags cs)
      = .ok (cs.map fun c => { c with Enabled := some (enablement cmd c) }) := by
  induction cs with
  | nil => rfl
  | cons c rest ih =>
    simp [declareCollectorFlags, parseCollectorFlags, boolValue_collectorFlag, ih]

theorem duplicateFlag_eq_none (seen names : List String) :
    duplicateFlag seen names = none ↔ names.Nodup ∧ ∀ n ∈ names, n ∉ seen := by
  induction names generalizing seen with
  | nil => simp [duplicateFlag]
  | cons n rest ih =>
    by_cases hn : n ∈ seen
    · simp [duplicateFlag, hn]
    · simp only [duplicateFlag, hn, if_false, ih, List.nodup_cons, List.mem_cons]
      constructor
      · rintro ⟨hnodup, hseen⟩
        refine ⟨⟨fun hmem => (hseen n hmem) (Or.inl rfl), hnodup⟩, ?_⟩
        rintro m (rfl | hm)
        · exact hn
        · exact fun hms => hseen m hm (Or.inr hms)
      · rintro ⟨⟨hnotin, hnodup⟩, hseen⟩
        refine ⟨hnodup, ?_⟩
        rintro m hm (rfl | hms)
        · exact hnotin hm
        · exact hseen m (Or.inr hm) hms

theorem parseCLI_eq (lib : Stdlib) (g : Globals) (cmd : CommandLine) :
    parseCLI lib g cmd =
      match duplicateFlag []
          ((g.commandLine ++ g.collectors.map collectorFlag).map fun f => f.name) with
      | some name => .error (.usage ("duplicate long flag --" ++ name))
      | none =>
        match cmd.builtin with
        | some .help => .error .help
        | some .version => .error .version
        | none =>
          match lib.ParseDuration (cmd.stringValue frrVTYSHTimeoutFlag) with
          | .error err =>
            .error (.fatal (fatalMessage lib (cmd.stringValue frrVTYSHTimeoutFlag) err))
          | .ok _ => .ok (parsedGlobals g cmd) := by
  unfold parseCLI
  simp only [parseCollectorFlags_declare, declareCollectorFlags_fst]
  rfl

theorem parseCLI_of_parse (lib : Stdlib) (g : Globals) (cmd : CommandLine)
    (hflags : ((g.commandLine ++ g.collectors.map collectorFlag).map fun f => f.name).Nodup)
    (hbuiltin : cmd.builtin = none) :
    parseCLI lib g cmd =
      match lib.ParseDuration (cmd.stringValue frrVTYSHTimeoutFlag) with
      | .error err =>
        .error (.fatal (fatalMessage lib (cmd.stringValue frrVTYSHTimeoutFlag) err))
      | .ok _ => .ok (parsedGlobals g cmd) := by
  have hdup : duplicateFlag []
      ((g.commandLine ++ g.collectors.map collectorFlag).map fun f => f.name) = none :=
    (duplicateFlag_eq_none _ _).mpr ⟨hflags, fun _ _ => List.not_mem_nil _⟩
  rw [parseCLI_eq, hdup, hbuiltin]

theorem parseCLI_ok (lib : Stdlib) (g : Globals) (cmd : CommandLine) (d : Duration)
    (hflags : ((g.commandLine ++ g.collectors.map collectorFlag).map fun f => f.name).Nodup)
    (hbuiltin : cmd.builtin = none)
    (h : lib.ParseDuration (cmd.stringValue frrVTYSHTimeoutFlag) = .ok d) :
    parseCLI lib g cmd = .ok (parsedGlobals g cmd) := by
  rw [parseCLI_of_parse lib g cmd hflags hbuiltin, h]

theorem parseCLI_error (lib : Stdlib) (g : Globals) (cmd : CommandLine) (err : String)
    (hflags : ((g.commandLine ++ g.collectors.map collectorFlag).map fun f => f.name).Nodup)
    (hbuiltin : cmd.builtin = none)
    (h : lib.ParseDuration (cmd.stringValue frrVTYSHTimeoutFlag) = .error err) :
    parseCLI lib g cmd
      = .error (.fatal (fatalMessage lib (cmd.stringValue frrVTYSHTimeoutFlag) err)) := by
  rw [parseCLI_of_parse lib g cmd hflags hbuiltin, h]

theorem parseCLI_ok_inv (lib : Stdlib) (g : Globals) (cmd : CommandLine) (g' : Globals)
    (h : parseCLI lib g cmd = .ok g') :
    ((g.commandLine ++ g.collectors.map collectorFlag).map fun f => f.name).Nodup ∧
    cmd.builtin = none ∧
    (∃ d, lib.ParseDuration (cmd.stringValue frrVTYSHTimeoutFlag) = .ok d) ∧
    g' = parsedGlobals g cmd := by
  rw [parseCLI_eq] at h
  cases hdup : duplicateFlag []
      ((g.commandLine ++ g.collectors.map collectorFlag).map fun f => f.name) with
  | some name => rw [hdup] at h; cases h
  | none =>
    rw [hdup] at h
    cases hb : cmd.builtin with
    | some b => rw [hb] at h; cases b <;> cases h
    | none =>
      rw [hb] at h
      cases hpd : lib.ParseDuration (cmd.stringValue frrVTYSHTimeoutFlag) with
      | error err => rw [hpd] at h; cases h
      | ok d =>
        rw [hpd] at h
        cases h
        exact ⟨((duplicateFlag_eq_none _ _).mp hdup).1, rfl, ⟨d, rfl⟩, rfl⟩

theorem parsedGlobals_enabled (g : Globals) (cmd : CommandLine) :
    ∀ c ∈ (parsedGlobals g cmd).collectors, c.Enabled ≠ none := by
  intro c hc
  simp only [parsedGlobals, List.mem_map] at hc
  obtain ⟨c0, _, rfl⟩ := hc
  simp

theorem main_eq (lib : Stdlib) (pkg : Package) (cmd : CommandLine) :
    main lib pkg cmd =
      match parseCLI lib { Globals.initial with collectors := initCollectors pkg [] } cmd with
      | .error e => .exited e
      | .ok g =>
        if lib.HandleFuncPanics [] g.telemetryPath then .panicked g.telemetryPath
        else if lib.HandleFuncPanics [g.telemetryPath] "/" then .panicked "/"
        else .serving g g.telemetryPath g.listenAddress := rfl

theorem main_serving_inv (lib : Stdlib) (pkg : Package) (cmd : CommandLine) (gm : Globals)
    (path address : String) (h : main lib pkg cmd = .serving gm path address) :
    parseCLI lib { Globals.initial with collectors := initCollectors pkg [] } cmd = .ok gm ∧
    lib.HandleFuncPanics [] gm.telemetryPath = false ∧
    lib.HandleFuncPanics [gm.telemetryPath] "/" = false ∧
    path = gm.telemetryPath ∧ address = gm.listenAddress := by
  rw [main_eq] at h
  cases hp : parseCLI lib { Globals.initial with collectors := initCollectors pkg [] } cmd with
  | error e => rw [hp] at h; cases h
  | ok g1 =>
    rw [hp] at h
    simp only at h
    cases h1 : lib.HandleFuncPanics [] g1.telemetryPath with
    | true => simp [h1] at h
    | false =>
      cases h2 : lib.HandleFuncPanics [g1.telemetryPath] "/" with
      | true => simp [h1, h2] at h
      | false =>
        simp only [h1, h2, Bool.false_eq_true, if_false, Process.serving.injEq] at h
        obtain ⟨rfl, rfl, rfl⟩ := h
        exact ⟨rfl, h1, h2, rfl, rfl⟩

theorem Quote_data (table : Char → Bool) (v : String) :
    (Quote table v).data
      = '"' :: (v.data.flatMap (appendEscapedRune table) ++ ['"']) := rfl

theorem flatMap_appendEscapedRune_plain (table : Char → Bool) (l : List Char)
    (h : ∀ c ∈ l, IsPrint table c = true ∧ c ≠ '"' ∧ c ≠ '\\') :
    l.flatMap (appendEscapedRune table) = l := by
  induction l with
  | nil => rfl
  | cons c rest ih =>
    obtain ⟨hp, hq, hb⟩ := h c (List.mem_cons_self _ _)
    have hrest := ih fun d hd => h d (List.mem_cons_of_mem _ hd)
    simp [List.flatMap_cons, appendEscapedRune, hp, hq, hb, hrest]

theorem fatalMessage_data (lib : Stdlib) (v err : String) :
    (fatalMessage lib v err).data
      = "invalid ".data ++ ("frr.vtysh.timeout".data ++ (" flag ".data
          ++ ((Quote lib.IsPrintTable v).data ++ (": ".data ++ err.data)))) := by
  simp only [fatalMessage, String.data_append, List.append_assoc]
  rfl

theorem serve_eq (lib : Stdlib) (env : Nat → Env) (g : Globals)
    (h : ∀ c ∈ g.collectors, c.Enabled ≠ none) (n first : Nat) :
    serve lib env n first g
      = .ok (g, (List.range n).map fun i => builtScrape lib (env (first + i)) (first + i) g) := by
  induction n generalizing first with
  | zero => rfl
  | succ n ih =>
    simp only [serve, handler_eq lib (env first) first g h, ih (first + 1)]
    simp [List.range_succ_eq_map, Nat.add_assoc, Nat.add_comm 1]

theorem Register_NewRegistry (describe : Exporter → List String) (request : Nat)
    (c : Exporter) :
    (NewRegistry request).Register describe c
      = ({ request := request, collectors := [c], descIDs := describe c }, none) := by
  have hnone : (describe c).find? (fun d => decide (d ∈ (NewRegistry request).descIDs)) = none := by
    simp [NewRegistry]
  simp only [Registry.Register, hnone]
  simp [NewRegistry]

theorem mem_serve_scrapes (lib : Stdlib) (env : Nat → Env) (g : Globals) (n first : Nat)
    (sc : Scrape)
    (h : sc ∈ (List.range n).map fun i => builtScrape lib (env (first + i)) (first + i) g) :
    ∃ i, i < n ∧ sc = builtScrape lib (env (first + i)) (first + i) g := by
  simp only [List.mem_map, List.mem_range] at h
  obtain ⟨i, hi, rfl⟩ := h
  exact ⟨i, hi, rfl⟩

theorem getElem?_serve_scrapes (lib : Stdlib) (env : Nat → Env) (g : Globals)
    (n first i : Nat) (sc : Scrape)
    (h : ((List.range n).map fun i => builtScrape lib (env (first + i)) (first + i) g)[i]?
      = some sc) :
    i < n ∧ sc = builtScrape lib (env (first + i)) (first + i) g := by
  rw [List.getElem?_map] at h
  by_cases hi : i < n
  · rw [List.getElem?_range hi] at h
    simp only [Option.map_some', Option.some.injEq] at h
    exact ⟨hi, h.symm⟩
  · rw [List.getElem?_eq_none (by simpa using hi)] at h
    cases h

/-! ## Lemmas on gathering -/

theorem mem_of_mem_keepFirst (seen : List (String × List String)) (l : List Metric)
    (m : Metric) (h : m ∈ keepFirst seen l) : m ∈ l := by
  induction l generalizing seen with
  | nil => simp [keepFirst] at h
  | cons x rest ih =>
    by_cases hx : x.key ∈ seen
    · simp only [keepFirst, hx, if_true] at h
      exact List.mem_cons_of_mem _ (ih _ h)
    · simp only [keepFirst, hx, if_false, List.mem_cons] at h
      rcases h with rfl | h
      · exact List.mem_cons_self _ _
      · exact List.mem_cons_of_mem _ (ih _ h)

theorem keepFirst_covers (seen : List (String × List String)) (l : List Metric)
    (m : Metric) (h : m ∈ l) :
    m.key ∈ seen ∨ ∃ m' ∈ keepFirst seen l, m'.key = m.key := by
  induction l generalizing seen with
  | nil => simp at h
  | cons x rest ih =>
    by_cases hx : x.key ∈ seen
    · simp only [keepFirst, hx, if_true]
      rcases List.mem_cons.mp h with rfl | hm
      · exact Or.inl hx
      · exact ih seen hm
    · simp only [keepFirst, hx, if_false]
      rcases List.mem_cons.mp h with rfl | hm
      · exact Or.inr ⟨m, List.mem_cons_self _ _, rfl⟩
      · rcases ih (x.key :: seen) hm with hseen | ⟨m', hm', hk⟩
        · rcases List.mem_cons.mp hseen with hxk | hs
          · exact Or.inr ⟨x, List.mem_cons_self _ _, hxk.symm⟩
          · exact Or.inl hs
        · exact Or.inr ⟨m', List.mem_cons_of_mem _ hm', hk⟩

theorem keepFirst_eq_self (seen : List (String × List String)) (l : List Metric)
    (hnodup : (l.map Metric.key).Nodup) (hseen : ∀ m ∈ l, m.key ∉ seen) :
    keepFirst seen l = l ∧ collectedBefore seen l = [] := by
  induction l generalizing seen with
  | nil => exact ⟨rfl, rfl⟩
  | cons x rest ih =>
    have hx : x.key ∉ seen := hseen x (List.mem_cons_self _ _)
    simp only [List.map_cons, List.nodup_cons, List.mem_map, not_exists, not_and] at hnodup
    have hrest : ∀ m ∈ rest, m.key ∉ x.key :: seen := by
      intro m hm hmem
      rcases List.mem_cons.mp hmem with hk | hs
      · exact hnodup.1 m hm hk
      · exact hseen m (List.mem_cons_of_mem _ hm) hs
    obtain ⟨h1, h2⟩ := ih (x.key :: seen) hnodup.2 hrest
    simp [keepFirst, collectedBefore, hx, h1, h2]

theorem keepFirst_nil (l : List Metric) (h : keepFirst [] l = []) : l = [] := by
  cases l with
  | nil => rfl
  | cons x rest => simp [keepFirst] at h

theorem sortMetrics_perm (l : List Metric) : (sortMetrics l).Perm l :=
  List.perm_insertionSort _ l

theorem sortMetrics_nil (l : List Metric) (h : sortMetrics l = []) : l = [] :=
  List.length_eq_zero.mp (by rw [← (sortMetrics_perm l).length_eq, h]; rfl)

/-- What `handler` serves, given the content of the default gatherer and what the
registry's collectors sent. -/
theorem served_metrics (defaultGatherer collected : List Metric) :
    ∃ body,
      ServeHTTP { ErrorHandling := .ContinueOnError }
        (Gatherers.Gather [(defaultGatherer, []),
          (sortMetrics (keepFirst [] collected),
            (collectedBefore [] collected).map duplicateError)]) = .metrics body ∧
      (∀ m ∈ body, m ∈ defaultGatherer ∨ m ∈ collected) ∧
      (∀ m ∈ defaultGatherer ++ collected, ∃ m' ∈ body, m'.key = m.key) ∧
      (((defaultGatherer ++ collected).map Metric.key).Nodup →
        body.Perm (defaultGatherer ++ collected)) := by
  have hall : ([(defaultGatherer, ([] : List String)),
      (sortMetrics (keepFirst [] collected),
        (collectedBefore [] collected).map duplicateError)].flatMap fun r => r.1)
      = defaultGatherer ++ sortMetrics (keepFirst [] collected) := by
    simp [List.flatMap_cons]
  have herrs : ([(defaultGatherer, ([] : List String)),
      (sortMetrics (keepFirst [] collected),
        (collectedBefore [] collected).map duplicateError)].flatMap fun r => r.2)
      = (collectedBefore [] collected).map duplicateError := by
    simp [List.flatMap_cons]
  refine ⟨sortMetrics (keepFirst [] (defaultGatherer ++ sortMetrics (keepFirst [] collected))),
    ?_, ?_, ?_, ?_⟩
  · simp only [ServeHTTP, Gatherers.Gather, hall, herrs]
    split
    · rfl
    · rename_i hne
      split
      · rename_i hbody
        exfalso
        apply hne
        have h1 := keepFirst_nil _ (sortMetrics_nil _ hbody)
        have h2 : collected = [] :=
          keepFirst_nil _ (sortMetrics_nil _ (List.append_eq_nil.mp h1).2)
        have h3 : defaultGatherer = [] := (List.append_eq_nil.mp h1).1
        subst h2 h3
        rfl
      · rfl
  · intro m hm
    have h1 := mem_of_mem_keepFirst _ _ _ ((sortMetrics_perm _).mem_iff.mp hm)
    rcases List.mem_append.mp h1 with hd | hr
    · exact Or.inl hd
    · exact Or.inr (mem_of_mem_keepFirst _ _ _ ((sortMetrics_perm _).mem_iff.mp hr))
  · intro m hm
    have hcover : ∀ x ∈ defaultGatherer ++ sortMetrics (keepFirst [] collected),
        ∃ m' ∈ sortMetrics (keepFirst []
          (defaultGatherer ++ sortMetrics (keepFirst [] collected))), m'.key = x.key := by
      intro x hx
      rcases keepFirst_covers [] _ x hx with hnil | ⟨m', hm', hk⟩
      · exact absurd hnil (List.not_mem_nil _)
      · exact ⟨m', (sortMetrics_perm _).mem_iff.mpr hm', hk⟩
    rcases List.mem_append.mp hm with hd | hc
    · exact hcover m (List.mem_append_left _ hd)
    · rcases keepFirst_covers [] collected m hc with hnil | ⟨m1, hm1, hk1⟩
      · exact absurd hnil (List.not_mem_nil _)
      · obtain ⟨m', hm', hk⟩ := hcover m1
          (List.mem_append_right _ ((sortMetrics_perm _).mem_iff.mpr hm1))
        exact ⟨m', hm', hk.trans hk1⟩
  · intro hnodup
    have hc : (collected.map Metric.key).Nodup := by
      rw [List.map_append] at hnodup
      exact (List.nodup_append.mp hnodup).2.1
    have h1 := (keepFirst_eq_self [] collected hc (fun _ _ => List.not_mem_nil _)).1
    have hperm : (defaultGatherer ++ sortMetrics (keepFirst [] collected)).Perm
        (defaultGatherer ++ collected) := by
      rw [h1]
      exact (sortMetrics_perm collected).append_left _
    have hnodup2 : ((defaultGatherer ++ sortMetrics (keepFirst [] collected)).map
        Metric.key).Nodup := (hperm.map Metric.key).nodup_iff.mpr hnodup
    have h2 := (keepFirst_eq_self [] _ hnodup2 (fun _ _ => List.not_mem_nil _)).1
    rw [h2]
    exact (sortMetrics_perm _).trans hperm

theorem collectLoop_eq (env : Env) (cs : List Collector) (sent : List Metric) :
    Exporter.collectLoop env cs sent
      = sent ++ cs.flatMap fun c =>
          (if (env.emit c).success then (env.emit c).samples else [])
            ++ [successSample env c, durationSample env c] := by
  induction cs generalizing sent with
  | nil => simp [Exporter.collectLoop]
  | cons c rest ih =>
    cases hs : (env.emit c).success with
    | true => simp [Exporter.collectLoop, hs, ih, List.flatMap_cons]
    | false => simp [Exporter.collectLoop, hs, ih, List.flatMap_cons]

theorem evaluated_perm (env : Env) (cs : List Collector) :
    (cs.flatMap fun c =>
        (if (env.emit c).success then (env.emit c).samples else [])
          ++ [successSample env c, durationSample env c]).Perm
      ((cs.filter fun c => (env.emit c).success).flatMap (fun c => (env.emit c).samples)
        ++ cs.map (successSample env) ++ cs.map (durationSample env)) := by
  rw [List.perm_iff_count]
  intro a
  induction cs with
  | nil => simp
  | cons c rest ih =>
    cases hs : (env.emit c).success with
    | true =>
      simp only [List.flatMap_cons, List.filter_cons, hs, if_true, List.map_cons,
        List.count_append, List.count_cons, List.count_nil] at ih ⊢
      omega
    | false =>
      simp only [List.flatMap_cons, List.filter_cons, hs, List.map_cons,
        List.count_append, List.count_cons, List.count_nil, Bool.false_eq_true, if_false,
        List.nil_append] at ih ⊢
      omega

theorem builtScrape_collected (lib : Stdlib) (env : Env) (request : Nat) (g : Globals) :
    (builtScrape lib env request g).collected
      = (g.collectors.filter (fun c => c.Enabled = some true)).flatMap fun c =>
          (if (env.emit c).success then (env.emit c).samples else [])
            ++ [successSample env c, durationSample env c] := by
  simp [builtScrape, Register_NewRegistry, Registry.collected, Exporter.Collect,
    builtExporter, collectLoop_eq]

theorem builtScrape_response (lib : Stdlib) (env : Env) (request : Nat) (g : Globals) :
    (builtScrape lib env request g).response
      = ServeHTTP { ErrorHandling := .ContinueOnError }
        (Gatherers.Gather [(env.defaultGatherer, []),
          (sortMetrics (keepFirst [] (builtScrape lib env request g).collected),
            (collectedBefore [] (builtScrape lib env request g).collected).map
              duplicateError)]) := rfl

/-! ## Claims -/

/-- C1: when every registered collector has its enablement set, `handler` passes
to `NewExporter` the registered list filtered by `Enabled`: a collector is in
the list exactly when it is registered and enabled (a disabled one never is),
with the multiplicity it has in the registered list and in registration
order. -/
theorem handler_passes_enabled_collectors (lib : Stdlib) (env : Env) (request : Nat)
    (g : Globals) (h : ∀ c ∈ g.collectors, c.Enabled ≠ none) :
    ∃ sc, handler lib env request g = .ok (g, sc) ∧
      sc.enabledCollectors = g.collectors.filter (fun c => c.Enabled = some true) ∧
      sc.exporter.collectors = sc.enabledCollectors ∧
      (∀ c, c ∈ sc.enabledCollectors ↔ c ∈ g.collectors ∧ c.Enabled = some true) ∧
      (∀ c, c.Enabled = some false → c ∉ sc.enabledCollectors) ∧
      (∀ c, sc.enabledCollectors.count c =
        if c.Enabled = some true then g.collectors.count c else 0) ∧
      sc.enabledCollectors.Sublist g.collectors := by
  refine ⟨_, handler_eq lib env request g h, rfl, rfl, ?_, ?_, ?_, ?_⟩
  · intro c
    simp [builtScrape, List.mem_filter]
  · intro c hc hmem
    simp [builtScrape, List.mem_filter, hc] at hmem
  · intro c
    by_cases hc : c.Enabled = some true
    · rw [if_pos hc]
      exact List.count_filter (by simpa using hc)
    · rw [if_neg hc]
      exact List.count_eq_zero.mpr (by simp [builtScrape, List.mem_filter, hc])
  · exact List.filter_sublist _

/-- C1, on the scenario of the spec: with A enabled, B enabled and C disabled
registered in that order, the exporter receives exactly A and B. -/
theorem handler_passes_enabled_collectors_witness :
    (∀ c ∈ scenario.collectors, c.Enabled ≠ none) ∧
    ∃ sc, handler sampleLib sampleEnv 0 scenario = .ok (scenario, sc) ∧
      sc.enabledCollectors = [collectorA, collectorB] ∧
      sc.exporter.collectors = [collectorA, collectorB] := by
  have h : ∀ c ∈ scenario.collectors, c.Enabled ≠ none := by decide
  obtain ⟨sc, hsc, hpassed, hexp, _⟩ :=
    handler_passes_enabled_collectors sampleLib sampleEnv 0 scenario h
  have hlist : scenario.collectors.filter (fun c => c.Enabled = some true)
      = [collectorA, collectorB] := by decide
  exact ⟨h, sc, hsc, hpassed.trans hlist, (hexp.trans hpassed).trans hlist⟩

/-- C6: `initCollectors`, called on the empty list, leaves exactly four
descriptors, each once, built in the order BGP, OSPF, BGP6, BFD; in each the
`Name` field is the `Name()` of the collector installed as `CLIHelper`, and
`PromCollector`, `Errors` and `CLIHelper` are that same collector. -/
theorem initCollectors_registers_four_in_order (pkg : Package) :
    (initCollectors pkg Globals.initial.collectors).length = 4 ∧
    (initCollectors pkg Globals.initial.collectors).map (fun d => d.CLIHelper)
      = [pkg.construct .NewBGPCollector, pkg.construct .NewOSPFCollector,
         pkg.construct .NewBGP6Collector, pkg.construct .NewBFDCollector] ∧
    (initCollectors pkg Globals.initial.collectors).map (fun d => d.CLIHelper.builtBy)
      = [.NewBGPCollector, .NewOSPFCollector, .NewBGP6Collector, .NewBFDCollector] ∧
    (initCollectors pkg Globals.initial.collectors).Nodup ∧
    (∀ d ∈ initCollectors pkg Globals.initial.collectors,
      (initCollectors pkg Globals.initial.collectors).count d = 1) ∧
    (∀ d ∈ initCollectors pkg Globals.initial.collectors,
      d.Name = d.CLIHelper.Name ∧ d.PromCollector = d.CLIHelper ∧
      d.Errors = d.CLIHelper) := by
  have hnodup : (initCollectors pkg Globals.initial.collectors).Nodup := by
    apply List.Nodup.of_map (fun d => d.CLIHelper.builtBy)
    simp [initCollectors, Globals.initial, newDescriptor, Package.construct]
  refine ⟨rfl, rfl, rfl, hnodup, ?_, ?_⟩
  · intro d hd
    exact List.count_eq_one_of_mem hnodup hd
  · intro d hd
    simp [initCollectors, Globals.initial] at hd
    rcases hd with rfl | rfl | rfl | rfl <;> simp [newDescriptor]

/-- C9: the flag name `parseCLI` derives determines the collector name, so
collectors with different `Name()` get different flag names, and no derived
flag name is one of `web.listen-address`, `web.telemetry-path`,
`frr.vtysh.path`, `frr.vtysh.timeout`. -/
theorem collectorFlag_name_injective_and_fresh :
    (∀ a b : Collector, (collectorFlag a).name = (collectorFlag b).name ↔
      a.CLIHelper.Name = b.CLIHelper.Name) ∧
    (∀ a b : Collector, a.CLIHelper.Name ≠ b.CLIHelper.Name →
      (collectorFlag a).name ≠ (collectorFlag b).name) ∧
    fixedFlags.map (fun f => f.name)
      = ["web.listen-address", "web.telemetry-path", "frr.vtysh.path", "frr.vtysh.timeout"] ∧
    (∀ c : Collector, ∀ f ∈ fixedFlags, (collectorFlag c).name ≠ f.name) ∧
    (∀ c : Collector, (collectorFlag c).name ∉
      ["web.listen-address", "web.telemetry-path", "frr.vtysh.path", "frr.vtysh.timeout"]) := by
  have hinj : ∀ a b : Collector, (collectorFlag a).name = (collectorFlag b).name ↔
      a.CLIHelper.Name = b.CLIHelper.Name := by
    intro a b
    constructor
    · intro h
      have hd := congrArg String.data h
      rw [collectorFlag_name_data, collectorFlag_name_data] at hd
      simp only [List.cons.injEq, true_and] at hd
      exact String.ext hd
    · intro h
      rw [collectorFlag_name, collectorFlag_name, h]
  have hfresh : ∀ c : Collector, (collectorFlag c).name ∉
      ["web.listen-address", "web.telemetry-path", "frr.vtysh.path", "frr.vtysh.timeout"] := by
    intro c hmem
    simp only [List.mem_cons, List.mem_singleton, List.mem_nil_iff, or_false] at hmem
    rcases hmem with h | h | h | h <;>
    · have hd := congrArg String.data h
      rw [collectorFlag_name_data] at hd
      have hh := congrArg List.head? hd
      rw [List.head?_cons] at hh
      exact absurd hh (by decide)
  refine ⟨hinj, ?_, rfl, ?_, hfresh⟩
  · intro a b hne h
    exact hne ((hinj a b).mp h)
  · intro c f hf hname
    apply hfresh c
    rw [hname]
    simp only [fixedFlags, List.mem_cons, List.mem_singleton, List.mem_nil_iff, or_false] at hf
    rcases hf with rfl | rfl | rfl | rfl <;> decide

/-- C4: the loop of `parseCLI` derives one flag per registered collector, in
order: a boolean flag named `collector.` followed by `Name()`, with help text
`Help()` followed by ` (default: enabled).` or ` (default: disabled).` according
to `EnabledByDefault()`; there are as many derived flags as collectors, and a
`parseCLI` that returns has added exactly these to the declared flags. -/
theorem parseCLI_derives_one_flag_per_collector (cs : List Collector) :
    ((declareCollectorFlags cs).map Prod.fst).length = cs.length ∧
    (∀ (i : Nat) (c : Collector), cs[i]? = some c →
      ∃ f, ((declareCollectorFlags cs).map Prod.fst)[i]? = some f ∧
        f.kind = .bool ∧
        f.name = "collector." ++ c.CLIHelper.Name ∧
        (c.CLIHelper.EnabledByDefault = true →
          f.help = c.CLIHelper.Help ++ " (default: enabled).") ∧
        (c.CLIHelper.EnabledByDefault = false →
          f.help = c.CLIHelper.Help ++ " (default: disabled).")) ∧
    (∀ lib g cmd g', g.collectors = cs → parseCLI lib g cmd = .ok g' →
      g'.commandLine = g.commandLine ++ (declareCollectorFlags cs).map Prod.fst) := by
  refine ⟨by simp [declareCollectorFlags_fst], ?_, ?_⟩
  · intro i c hc
    refine ⟨collectorFlag c, ?_, rfl, rfl, ?_, ?_⟩
    · rw [declareCollectorFlags_fst, List.getElem?_map, hc]
      rfl
    · intro h
      simp only [collectorFlag, h, String.append_assoc]
      rfl
    · intro h
      simp only [collectorFlag, h, String.append_assoc]
      rfl
  · intro lib g cmd g' hcs hparse
    obtain ⟨_, _, _, rfl⟩ := parseCLI_ok_inv lib g cmd g' hparse
    simp [parsedGlobals, declareCollectorFlags_fst, hcs]

/-- C8: once `parseCLI` has returned, the value of `frr.vtysh.timeout` it left
parses: the second `ParseDuration` call, in `handler`, succeeds with the
duration `parseCLI` validated, and in every request served afterwards the
exporter receives exactly that duration. -/
theorem handler_timeout_is_the_validated_duration (lib : Stdlib) (g : Globals)
    (cmd : CommandLine) (g' : Globals) (h : parseCLI lib g cmd = .ok g') :
    ∃ d, lib.ParseDuration (cmd.stringValue frrVTYSHTimeoutFlag) = .ok d ∧
      g'.frrVTYSHTimeout = cmd.stringValue frrVTYSHTimeoutFlag ∧
      lib.ParseDuration g'.frrVTYSHTimeout = .ok d ∧
      (∀ env request, ∃ sc, handler lib env request g' = .ok (g', sc) ∧
        sc.exporter.vtyshTimeout = d) ∧
      (∀ env n first, ∃ scs, serve lib env n first g' = .ok (g', scs) ∧
        scs.length = n ∧ ∀ sc ∈ scs, sc.exporter.vtyshTimeout = d) := by
  obtain ⟨_, _, ⟨d, hpd⟩, rfl⟩ := parseCLI_ok_inv lib g cmd g' h
  have hen := parsedGlobals_enabled g cmd
  have htime : handlerTimeout lib (parsedGlobals g cmd) = d := by
    simp [handlerTimeout, parsedGlobals, hpd]
  refine ⟨d, hpd, rfl, hpd, ?_, ?_⟩
  · intro env request
    exact ⟨_, handler_eq lib env request _ hen, htime⟩
  · intro env n first
    refine ⟨_, serve_eq lib env _ hen n first, by simp, ?_⟩
    intro sc hsc
    obtain ⟨i, _, rfl⟩ := mem_serve_scrapes lib env _ n first sc hsc
    exact htime

/-- C8, on the FRR collectors started with `--frr.vtysh.timeout=5s`: `parseCLI`
returns and the exporter of a request receives five seconds. -/
theorem handler_timeout_is_the_validated_duration_witness :
    parseCLI sampleLib { Globals.initial with collectors := initCollectors samplePackage [] }
        (timeoutArgument "5s")
      = .ok (parsedGlobals { Globals.initial with collectors := initCollectors samplePackage [] }
          (timeoutArgument "5s")) ∧
    ∃ sc, handler sampleLib sampleEnv 0
        (parsedGlobals { Globals.initial with collectors := initCollectors samplePackage [] }
          (timeoutArgument "5s"))
        = .ok (parsedGlobals
            { Globals.initial with collectors := initCollectors samplePackage [] }
            (timeoutArgument "5s"), sc) ∧
      sc.exporter.vtyshTimeout = 5000000000 := by
  have h : parseCLI sampleLib
      { Globals.initial with collectors := initCollectors samplePackage [] }
      (timeoutArgument "5s")
      = .ok (parsedGlobals { Globals.initial with collectors := initCollectors samplePackage [] }
          (timeoutArgument "5s")) := rfl
  obtain ⟨d, hd, _, _, hreq, _⟩ :=
    handler_timeout_is_the_validated_duration sampleLib _ _ _ h
  have hd5 : d = 5000000000 := by
    have h5 : sampleLib.ParseDuration ((timeoutArgument "5s").stringValue frrVTYSHTimeoutFlag)
        = .ok 5000000000 := rfl
    rw [h5] at hd
    cases hd
    rfl
  obtain ⟨sc, hsc, ht⟩ := hreq sampleEnv 0
  exact ⟨h, sc, hsc, ht.trans hd5⟩

/-- C5: in every sequence of requests, each call of `handler` allocates its own
empty registry and registers in it the exporter it has just built; the
registration meets no earlier entry and returns no error, the registry then
holds that exporter alone, and no exporter of an earlier request is in it. -/
theorem every_scrape_registers_in_a_fresh_registry (lib : Stdlib) (env : Nat → Env)
    (g : Globals) (h : ∀ c ∈ g.collectors, c.Enabled ≠ none) (n first : Nat) :
    ∃ scs, serve lib env n first g = .ok (g, scs) ∧ scs.length = n ∧
      ∀ (i : Nat) (sc : Scrape), scs[i]? = some sc →
        sc.allocated = NewRegistry (first + i) ∧
        sc.allocated.collectors = [] ∧ sc.allocated.descIDs = [] ∧
        (sc.registry, sc.registerError)
          = sc.allocated.Register (env (first + i)).describe sc.exporter ∧
        sc.registerError = none ∧
        sc.exporter.request = first + i ∧
        sc.registry.request = first + i ∧
        sc.registry.collectors = [sc.exporter] ∧
        ∀ (j : Nat) (earlier : Scrape), j < i → scs[j]? = some earlier →
          earlier.exporter ∉ sc.registry.collectors ∧
          earlier.registry.request ≠ sc.registry.request := by
  refine ⟨_, serve_eq lib env g h n first, by simp, ?_⟩
  intro i sc hsc
  obtain ⟨_, rfl⟩ := getElem?_serve_scrapes lib env g n first i sc hsc
  refine ⟨rfl, rfl, rfl, rfl, ?_, rfl, ?_, ?_, ?_⟩
  · simp [builtScrape, Register_NewRegistry]
  · simp [builtScrape, Register_NewRegistry]
  · simp [builtScrape, Register_NewRegistry]
  · intro j earlier hj hearlier
    obtain ⟨_, rfl⟩ := getElem?_serve_scrapes lib env g n first j earlier hearlier
    have hne : first + j ≠ first + i := by omega
    constructor
    · simp only [builtScrape, Register_NewRegistry, List.mem_singleton]
      intro heq
      exact hne (congrArg Exporter.request heq)
    · simpa [builtScrape, Register_NewRegistry] using hne

/-- C5, on two consecutive requests of the scenario of the spec: both are
served, neither registration returns an error, and each registry holds one
exporter, its own. -/
theorem every_scrape_registers_in_a_fresh_registry_witness :
    (∀ c ∈ scenario.collectors, c.Enabled ≠ none) ∧
    ∃ first second, serve sampleLib (fun _ => sampleEnv) 2 0 scenario
        = .ok (scenario, [first, second]) ∧
      first.registerError = none ∧ second.registerError = none ∧
      first.registry.collectors = [first.exporter] ∧
      second.registry.collectors = [second.exporter] ∧
      first.exporter ∉ second.registry.collectors := by
  have h : ∀ c ∈ scenario.collectors, c.Enabled ≠ none := by decide
  obtain ⟨scs, hserve, hlen, hall⟩ :=
    every_scrape_registers_in_a_fresh_registry sampleLib (fun _ => sampleEnv) scenario h 2 0
  match scs, hlen with
  | [first, second], _ =>
    obtain ⟨_, _, _, _, he1, _, _, hr1, _⟩ := hall 0 first rfl
    obtain ⟨_, _, _, _, he2, _, _, hr2, hearlier⟩ := hall 1 second rfl
    exact ⟨h, first, second, hserve, he1, he2, hr1, hr2,
      (hearlier 0 first (by decide) rfl).1⟩

/-- C3: the default string `parseCLI` gives a collector flag,
`FormatBool (EnabledByDefault())`, parses back to that boolean.  So when
`kingpin.Parse` returns (the flag names are distinct, no `--help` or
`--version`) and the timeout is valid, `parseCLI` returns, and every collector
whose flag the command line does not mention has, through the pointer the loop
stored in `Enabled`, an enablement equal to its declared default; `handler`
passes such a collector on exactly when it is enabled by default. -/
theorem default_enablement_matches_declared (lib : Stdlib) (g : Globals)
    (cmd : CommandLine) (d : Duration)
    (hflags : ((g.commandLine ++ g.collectors.map collectorFlag).map fun f => f.name).Nodup)
    (hbuiltin : cmd.builtin = none)
    (hd : lib.ParseDuration (cmd.stringValue frrVTYSHTimeoutFlag) = .ok d) :
    (∀ b, ParseBool (FormatBool b) = .ok b) ∧
    (∀ c : Collector,
      (collectorFlag c).defaultValue = FormatBool c.CLIHelper.EnabledByDefault ∧
      ParseBool (collectorFlag c).defaultValue = .ok c.CLIHelper.EnabledByDefault) ∧
    ∃ g', parseCLI lib g cmd = .ok g' ∧
      g'.collectors.length = g.collectors.length ∧
      (∀ (i : Nat) (c : Collector), g.collectors[i]? = some c →
        cmd.bools (collectorFlag c).name = none →
        g'.collectors[i]? = some { c with Enabled := some c.CLIHelper.EnabledByDefault }) ∧
      (∀ c ∈ g'.collectors, cmd.bools (collectorFlag c).name = none →
        c.Enabled = some c.CLIHelper.EnabledByDefault) ∧
      (∀ env request, ∃ sc, handler lib env request g' = .ok (g', sc) ∧
        ∀ c ∈ g'.collectors, cmd.bools (collectorFlag c).name = none →
          (c ∈ sc.enabledCollectors ↔ c.CLIHelper.EnabledByDefault = true)) := by
  refine ⟨ParseBool_FormatBool, fun c => ⟨rfl, ParseBool_FormatBool _⟩,
    parsedGlobals g cmd, parseCLI_ok lib g cmd d hflags hbuiltin hd,
    by simp [parsedGlobals], ?_, ?_, ?_⟩
  · intro i c hc hcmd
    simp [parsedGlobals, List.getElem?_map, hc, enablement, hcmd]
  · intro c hc hcmd
    simp only [parsedGlobals, List.mem_map] at hc
    obtain ⟨c0, _, rfl⟩ := hc
    have hname : (collectorFlag { c0 with Enabled := some (enablement cmd c0) }).name
        = (collectorFlag c0).name := rfl
    rw [hname] at hcmd
    simp [enablement, hcmd]
  · intro env request
    refine ⟨_, handler_eq lib env request _ (parsedGlobals_enabled g cmd), ?_⟩
    intro c hc hcmd
    have hc' := hc
    simp only [parsedGlobals, List.mem_map] at hc
    obtain ⟨c0, _, rfl⟩ := hc
    have hname : (collectorFlag { c0 with Enabled := some (enablement cmd c0) }).name
        = (collectorFlag c0).name := rfl
    rw [hname] at hcmd
    simp only [builtScrape, List.mem_filter, hc', true_and]
    simp [enablement, hcmd]

/-- C3, on the FRR collectors with an empty command line: the flag names are
distinct, startup succeeds, and the collectors `bgp`, `ospf`, `bgp6` are
enabled while `bfd`, declared disabled by default, is not. -/
theorem default_enablement_matches_declared_witness :
    (((({ Globals.initial with collectors := initCollectors samplePackage [] } : Globals).commandLine
      ++ ({ Globals.initial with collectors := initCollectors samplePackage [] } : Globals).collectors.map
        collectorFlag).map fun f => f.name).Nodup) ∧
    noArguments.builtin = none ∧
    sampleLib.ParseDuration (noArguments.stringValue frrVTYSHTimeoutFlag)
      = .ok 20000000000 ∧
    ∃ g', parseCLI sampleLib
        { Globals.initial with collectors := initCollectors samplePackage [] } noArguments
        = .ok g' ∧
      g'.collectors.map (fun c => (c.Name, c.Enabled))
        = [("bgp", some true), ("ospf", some true), ("bgp6", some true),
           ("bfd", some false)] := by
  have hflags : ((({ Globals.initial with collectors := initCollectors samplePackage [] } :
      Globals).commandLine
      ++ ({ Globals.initial with collectors := initCollectors samplePackage [] } :
        Globals).collectors.map collectorFlag).map fun f => f.name).Nodup := by decide
  have hd : sampleLib.ParseDuration (noArguments.stringValue frrVTYSHTimeoutFlag)
      = .ok 20000000000 := rfl
  obtain ⟨_, _, g', hparse, _, _, _, _⟩ :=
    default_enablement_matches_declared sampleLib
      { Globals.initial with collectors := initCollectors samplePackage [] }
      noArguments 20000000000 hflags rfl hd
  refine ⟨hflags, rfl, hd, g', hparse, ?_⟩
  obtain ⟨_, _, _, rfl⟩ := parseCLI_ok_inv _ _ _ _ hparse
  decide

/-- C10: a `parseCLI` that returns leaves the `Enabled` pointer of every
registered collector set, the pointer its loop stored.  When `main` reaches
the listener, `handler` is installed on package variables `parseCLI` returned:
all four collectors have the pointer set, every request served afterwards
reads each pointer without a nil dereference, and `handler` returns the
registered list and every collector's enablement as it found them. -/
theorem enabled_set_after_parseCLI_and_kept_by_handler (lib : Stdlib) (pkg : Package)
    (cmd : CommandLine) (gm : Globals) (path address : String)
    (h : main lib pkg cmd = .serving gm path address) :
    (∀ g g', parseCLI lib g cmd = .ok g' →
      g'.collectors.length = g.collectors.length ∧
      (∀ c ∈ g'.collectors, c.Enabled ≠ none) ∧
      (∀ env request, ∃ sc, handler lib env request g' = .ok (g', sc)) ∧
      (∀ env n first, ∃ scs, serve lib env n first g' = .ok (g', scs) ∧ scs.length = n)) ∧
    parseCLI lib { Globals.initial with collectors := initCollectors pkg [] } cmd = .ok gm ∧
    gm.collectors.length = 4 ∧
    (∀ c ∈ gm.collectors, c.Enabled ≠ none) ∧
    (∀ env request, ∃ sc, handler lib env request gm = .ok (gm, sc)) ∧
    (∀ env n first, ∃ scs, serve lib env n first gm = .ok (gm, scs) ∧ scs.length = n) := by
  have key : ∀ g g', parseCLI lib g cmd = .ok g' →
      g'.collectors.length = g.collectors.length ∧
      (∀ c ∈ g'.collectors, c.Enabled ≠ none) ∧
      (∀ env request, ∃ sc, handler lib env request g' = .ok (g', sc)) ∧
      (∀ env n first, ∃ scs, serve lib env n first g' = .ok (g', scs) ∧ scs.length = n) := by
    intro g g' hparse
    obtain ⟨_, _, _, rfl⟩ := parseCLI_ok_inv lib g cmd g' hparse
    have hen := parsedGlobals_enabled g cmd
    exact ⟨by simp [parsedGlobals], hen,
      fun env request => ⟨_, handler_eq lib env request _ hen⟩,
      fun env n first => ⟨_, serve_eq lib env _ hen n first, by simp⟩⟩
  obtain ⟨hparse, _, _, _, _⟩ := main_serving_inv lib pkg cmd gm path address h
  obtain ⟨hlen, hen, hreq, hserve⟩ := key _ gm hparse
  refine ⟨key, hparse, ?_, hen, hreq, hserve⟩
  rw [hlen]
  rfl

/-- C10, on the FRR collectors with an empty command line: `main` reaches the
listener, and a request finds all four pointers set and is served. -/
theorem enabled_set_after_parseCLI_and_kept_by_handler_witness :
    main sampleLib samplePackage noArguments = .serving started "/metrics" ":9342" ∧
    started.collectors.map (fun c => (c.Name, c.Enabled))
      = [("bgp", some true), ("ospf", some true), ("bgp6", some true),
         ("bfd", some false)] ∧
    (∀ c ∈ started.collectors, c.Enabled ≠ none) ∧
    ∃ sc, handler sampleLib sampleEnv 0 started = .ok (started, sc) := by
  have h : main sampleLib samplePackage noArguments = .serving started "/metrics" ":9342" :=
    rfl
  obtain ⟨_, _, _, hen, hreq, _⟩ :=
    enabled_set_after_parseCLI_and_kept_by_handler sampleLib samplePackage noArguments
      started "/metrics" ":9342" h
  exact ⟨h, by decide, hen, hreq sampleEnv 0⟩

/-- C2, amended: when `kingpin.Parse` returns (the declared flag names are
distinct and neither `--help` nor `--version` is given), `parseCLI` aborts
exactly when `time.ParseDuration` rejects the value of `frr.vtysh.timeout`, by
`log.Fatalf`, and returns for every value it accepts.  The diagnostic of the
abort contains the flag name, the value as `%q` renders it, and the text of the
error; it contains the value itself when every character of the value is
printable and is neither a double quote nor a backslash.  Whenever `parseCLI`
ends the process, `main` exits there and reaches neither `http.HandleFunc` nor
`http.ListenAndServe`. -/
theorem parseCLI_aborts_iff_timeout_rejected (lib : Stdlib) (pkg : Package)
    (g : Globals) (cmd : CommandLine)
    (hflags : ((g.commandLine ++ g.collectors.map collectorFlag).map fun f => f.name).Nodup)
    (hbuiltin : cmd.builtin = none) :
    ((∃ e, parseCLI lib g cmd = .error e) ↔
      ∃ err, lib.ParseDuration (cmd.stringValue frrVTYSHTimeoutFlag) = .error err) ∧
    (∀ d, lib.ParseDuration (cmd.stringValue frrVTYSHTimeoutFlag) = .ok d →
      ∃ g', parseCLI lib g cmd = .ok g') ∧
    (∀ err, lib.ParseDuration (cmd.stringValue frrVTYSHTimeoutFlag) = .error err →
      parseCLI lib g cmd
        = .error (.fatal (fatalMessage lib (cmd.stringValue frrVTYSHTimeoutFlag) err)) ∧
      "frr.vtysh.timeout".data
        <:+: (fatalMessage lib (cmd.stringValue frrVTYSHTimeoutFlag) err).data ∧
      (Quote lib.IsPrintTable (cmd.stringValue frrVTYSHTimeoutFlag)).data
        <:+: (fatalMessage lib (cmd.stringValue frrVTYSHTimeoutFlag) err).data ∧
      err.data <:+: (fatalMessage lib (cmd.stringValue frrVTYSHTimeoutFlag) err).data ∧
      ((∀ c ∈ (cmd.stringValue frrVTYSHTimeoutFlag).data,
          IsPrint lib.IsPrintTable c = true ∧ c ≠ '"' ∧ c ≠ '\\') →
        (cmd.stringValue frrVTYSHTimeoutFlag).data
          <:+: (fatalMessage lib (cmd.stringValue frrVTYSHTimeoutFlag) err).data)) ∧
    (∀ e, parseCLI lib { Globals.initial with collectors := initCollectors pkg [] } cmd
        = .error e →
      main lib pkg cmd = .exited e) := by
  refine ⟨?_, ?_, ?_, ?_⟩
  · rw [parseCLI_of_parse lib g cmd hflags hbuiltin]
    cases lib.ParseDuration (cmd.stringValue frrVTYSHTimeoutFlag) <;> simp
  · intro d hd
    exact ⟨_, parseCLI_ok lib g cmd d hflags hbuiltin hd⟩
  · intro err herr
    refine ⟨parseCLI_error lib g cmd err hflags hbuiltin herr, ?_, ?_, ?_, ?_⟩
    · rw [fatalMessage_data]
      exact ⟨_, _, (List.append_assoc _ _ _)⟩
    · rw [fatalMessage_data]
      refine ⟨"invalid frr.vtysh.timeout flag ".data, ": ".data ++ err.data, ?_⟩
      simp only [List.append_assoc]
      rfl
    · rw [fatalMessage_data]
      refine ⟨"invalid frr.vtysh.timeout flag ".data
        ++ ((Quote lib.IsPrintTable (cmd.stringValue frrVTYSHTimeoutFlag)).data
        ++ ": ".data), [], ?_⟩
      simp only [List.append_assoc, List.append_nil]
      rfl
    · intro hplain
      rw [fatalMessage_data, Quote_data, flatMap_appendEscapedRune_plain _ _ hplain]
      refine ⟨"invalid frr.vtysh.timeout flag \"".data, '"' :: (": ".data ++ err.data), ?_⟩
      simp only [List.append_assoc, List.cons_append, List.nil_append]
  · intro e he
    rw [main_eq, he]

/-- C2, amended, on the FRR collectors started with
`--frr.vtysh.timeout=notaduration`: the flag names are distinct, the value is
rejected, and `main` exits with the diagnostic, which shows the value. -/
theorem parseCLI_aborts_iff_timeout_rejected_witness :
    (((({ Globals.initial with collectors := initCollectors samplePackage [] } : Globals).commandLine
      ++ ({ Globals.initial with collectors := initCollectors samplePackage [] } : Globals).collectors.map
        collectorFlag).map fun f => f.name).Nodup) ∧
    (timeoutArgument "notaduration").builtin = none ∧
    main sampleLib samplePackage (timeoutArgument "notaduration")
      = .exited (.fatal ("invalid frr.vtysh.timeout flag \"notaduration\": "
          ++ "time: invalid duration \"notaduration\"")) ∧
    "notaduration".data <:+:
      ("invalid frr.vtysh.timeout flag \"notaduration\": "
          ++ "time: invalid duration \"notaduration\"").data := by
  have hflags : ((({ Globals.initial with collectors := initCollectors samplePackage [] } :
      Globals).commandLine
      ++ ({ Globals.initial with collectors := initCollectors samplePackage [] } :
        Globals).collectors.map collectorFlag).map fun f => f.name).Nodup := by decide
  have herr : sampleLib.ParseDuration
      ((timeoutArgument "notaduration").stringValue frrVTYSHTimeoutFlag)
      = .error "time: invalid duration \"notaduration\"" := rfl
  obtain ⟨_, _, hfatal, hmain⟩ :=
    parseCLI_aborts_iff_timeout_rejected sampleLib samplePackage
      { Globals.initial with collectors := initCollectors samplePackage [] }
      (timeoutArgument "notaduration") hflags rfl
  obtain ⟨hparse, _, _, _, hraw⟩ := hfatal _ herr
  refine ⟨hflags, rfl, hmain _ hparse, ?_⟩
  exact hraw (by decide)

/-- C2 as stated fails twice.  Started with `--help` and the default timeout
`20s`, which is a valid duration, `parseCLI` does not return: kingpin answers
and ends the process.  Started with the timeout value `a"b`, which is not a
duration, `main` exits with a diagnostic that shows the value only in quoted
form, `a\"b`, and does not contain the value itself. -/
theorem startup_ends_without_fatal_and_diagnostic_lacks_raw_value :
    (sampleLib.ParseDuration (helpArgument.stringValue frrVTYSHTimeoutFlag)
        = .ok 20000000000 ∧
      parseCLI sampleLib { Globals.initial with collectors := initCollectors samplePackage [] }
        helpArgument = .error .help ∧
      main sampleLib samplePackage helpArgument = .exited .help) ∧
    ((timeoutArgument "a\"b").stringValue frrVTYSHTimeoutFlag = "a\"b" ∧
      sampleLib.ParseDuration "a\"b" = .error "time: invalid duration \"a\\\"b\"" ∧
      main sampleLib samplePackage (timeoutArgument "a\"b")
        = .exited (.fatal
            "invalid frr.vtysh.timeout flag \"a\\\"b\": time: invalid duration \"a\\\"b\"") ∧
      ¬ ("a\"b".data <:+:
          "invalid frr.vtysh.timeout flag \"a\\\"b\": time: invalid duration \"a\\\"b\"".data)) :=
  ⟨⟨rfl, rfl, rfl⟩, rfl, rfl, rfl, by decide⟩

/-- C7: a scrape started by `handler` evaluates every enabled collector, in
order, whether or not an earlier one failed.  With N enabled collectors of
which K fail, what the exporter sends is, collector after collector, the
samples of the collector if it succeeded and none if it failed, then its
success gauge (1 on success, 0 on failure) and its duration sample: K gauges
are 0 and N-K are 1.  The request is always answered with samples, each of
them from the default gatherer, from a succeeding collector, or a gauge or
duration of an enabled collector, and every identity sent is present.  When no
identity is gathered twice, the body is, up to the order `Gather` sorts in,
the default samples, the samples of the N-K succeeding collectors, and the N
gauges and N durations. -/
theorem scrape_isolates_collector_failures (lib : Stdlib) (env : Env) (request : Nat)
    (g : Globals) (h : ∀ c ∈ g.collectors, c.Enabled ≠ none) :
    ∃ sc, handler lib env request g = .ok (g, sc) ∧
      sc.enabledCollectors = g.collectors.filter (fun c => c.Enabled = some true) ∧
      sc.collected = sc.enabledCollectors.flatMap (fun c =>
        (if (env.emit c).success then (env.emit c).samples else [])
          ++ [successSample env c, durationSample env c]) ∧
      (∀ c, (successSample env c).value = if (env.emit c).success then 1 else 0) ∧
      (sc.enabledCollectors.map (successSample env)).length = sc.enabledCollectors.length ∧
      (sc.enabledCollectors.map (successSample env)).countP (fun m => m.value = 0)
        = sc.enabledCollectors.countP (fun c => !(env.emit c).success) ∧
      (sc.enabledCollectors.map (successSample env)).countP (fun m => m.value = 1)
        = sc.enabledCollectors.length
          - sc.enabledCollectors.countP (fun c => !(env.emit c).success) ∧
      (sc.enabledCollectors.filter fun c => (env.emit c).success).length
        = sc.enabledCollectors.length
          - sc.enabledCollectors.countP (fun c => !(env.emit c).success) ∧
      ∃ body, sc.response = .metrics body ∧
        (∀ m ∈ body, m ∈ env.defaultGatherer ∨
          m ∈ (sc.enabledCollectors.filter fun c => (env.emit c).success).flatMap
            (fun c => (env.emit c).samples) ∨
          m ∈ sc.enabledCollectors.map (successSample env) ∨
          m ∈ sc.enabledCollectors.map (durationSample env)) ∧
        (∀ c ∈ sc.enabledCollectors,
          (∃ m ∈ body, m.key = (successSample env c).key) ∧
          (∃ m ∈ body, m.key = (durationSample env c).key)) ∧
        (((env.defaultGatherer ++ sc.collected).map Metric.key).Nodup →
          body.Perm (env.defaultGatherer
            ++ ((sc.enabledCollectors.filter fun c => (env.emit c).success).flatMap
                (fun c => (env.emit c).samples)
              ++ sc.enabledCollectors.map (successSample env)
              ++ sc.enabledCollectors.map (durationSample env))) ∧
          (∀ c ∈ sc.enabledCollectors,
            successSample env c ∈ body ∧ durationSample env c ∈ body) ∧
          (∀ c ∈ sc.enabledCollectors, (env.emit c).success = true →
            ∀ m ∈ (env.emit c).samples, m ∈ body)) := by
  have hsplit : ∀ l : List Collector,
      l.countP (fun c => (env.emit c).success)
        = l.length - l.countP (fun c => !(env.emit c).success) := by
    intro l
    have := List.length_eq_countP_add_countP (fun c => (env.emit c).success) l
    have hnot : l.countP (fun c => decide ¬(env.emit c).success = true)
        = l.countP (fun c => !(env.emit c).success) := by
      congr 1
      funext c
      cases (env.emit c).success <;> rfl
    omega
  have hcol := builtScrape_collected lib env request g
  obtain ⟨body, hbody, hsub, hcover, hperm⟩ :=
    served_metrics env.defaultGatherer (builtScrape lib env request g).collected
  have hevalperm := evaluated_perm env (g.collectors.filter (fun c => c.Enabled = some true))
  rw [← hcol] at hevalperm
  have hmem_collected : ∀ c ∈ g.collectors.filter (fun c => c.Enabled = some true),
      successSample env c ∈ (builtScrape lib env request g).collected ∧
      durationSample env c ∈ (builtScrape lib env request g).collected ∧
      ((env.emit c).success = true →
        ∀ m ∈ (env.emit c).samples, m ∈ (builtScrape lib env request g).collected) := by
    intro c hc
    refine ⟨?_, ?_, ?_⟩
    · apply hevalperm.mem_iff.mpr
      simp only [List.mem_append, List.mem_map]
      exact Or.inl (Or.inr ⟨c, hc, rfl⟩)
    · apply hevalperm.mem_iff.mpr
      simp only [List.mem_append, List.mem_map]
      exact Or.inr ⟨c, hc, rfl⟩
    · intro hs m hm
      apply hevalperm.mem_iff.mpr
      simp only [List.mem_append, List.mem_flatMap]
      exact Or.inl (Or.inl ⟨c, List.mem_filter.mpr ⟨hc, hs⟩, hm⟩)
  refine ⟨_, handler_eq lib env request g h, rfl, hcol, fun c => rfl, by simp, ?_, ?_, ?_,
    body, (builtScrape_response lib env request g).trans hbody, ?_, ?_, ?_⟩
  · rw [List.countP_map]
    congr 1
    funext c
    cases hs : (env.emit c).success <;> simp [successSample, hs]
  · rw [List.countP_map, ← hsplit]
    congr 1
    funext c
    cases hs : (env.emit c).success <;> simp [successSample, hs]
  · rw [← hsplit, List.countP_eq_length_filter]
  · intro m hm
    rcases hsub m hm with hd | hc
    · exact Or.inl hd
    · have := hevalperm.mem_iff.mp hc
      simp only [List.mem_append] at this
      rcases this with (h1 | h2) | h3
      · exact Or.inr (Or.inl h1)
      · exact Or.inr (Or.inr (Or.inl h2))
      · exact Or.inr (Or.inr (Or.inr h3))
  · intro c hc
    obtain ⟨hs, hd, _⟩ := hmem_collected c hc
    exact ⟨hcover _ (List.mem_append_right _ hs), hcover _ (List.mem_append_right _ hd)⟩
  · intro hnodup
    have hp := hperm hnodup
    refine ⟨hp.trans (hevalperm.append_left _), ?_, ?_⟩
    · intro c hc
      obtain ⟨hs, hd, _⟩ := hmem_collected c hc
      exact ⟨hp.mem_iff.mpr (List.mem_append_right _ hs),
        hp.mem_iff.mpr (List.mem_append_right _ hd)⟩
    · intro c hc hsucc m hm
      exact hp.mem_iff.mpr (List.mem_append_right _ ((hmem_collected c hc).2.2 hsucc m hm))

/-- C7, on the scenario of the spec with the collector `ospf` (B) failing: both
enabled collectors are evaluated, A reports 1 and B reports 0, the sample of A
is served and the partial sample of B is not, and the disabled C does not
appear; no identity is gathered twice, and the body is in the order `Gather`
sorts in. -/
theorem scrape_isolates_collector_failures_witness :
    (∀ c ∈ scenario.collectors, c.Enabled ≠ none) ∧
    ∃ sc, handler sampleLib sampleEnv 0 scenario = .ok (scenario, sc) ∧
      sc.enabledCollectors = [collectorA, collectorB] ∧
      sc.collected =
        [{ name := "frr_bgp_sample", labels := [], value := 3 },
         { name := "frr_collector_up", labels := ["bgp"], value := 1 },
         { name := "frr_scrape_duration_seconds", labels := ["bgp"], value := 1 },
         { name := "frr_collector_up", labels := ["ospf"], value := 0 },
         { name := "frr_scrape_duration_seconds", labels := ["ospf"], value := 20 }] ∧
      ((sampleEnv.defaultGatherer ++ sc.collected).map Metric.key).Nodup ∧
      sc.response = .metrics
        [{ name := "frr_bgp_sample", labels := [], value := 3 },
         { name := "frr_collector_up", labels := ["bgp"], value := 1 },
         { name := "frr_collector_up", labels := ["ospf"], value := 0 },
         { name := "frr_exporter_build_info", labels := [], value := 1 },
         { name := "frr_scrape_duration_seconds", labels := ["bgp"], value := 1 },
         { name := "frr_scrape_duration_seconds", labels := ["ospf"], value := 20 }] := by
  have h : ∀ c ∈ scenario.collectors, c.Enabled ≠ none := by decide
  obtain ⟨sc, hsc, hen, _⟩ :=
    scrape_isolates_collector_failures sampleLib sampleEnv 0 scenario h
  have heq := handler_eq sampleLib sampleEnv 0 scenario h
  rw [heq] at hsc
  cases hsc
  exact ⟨h, _, heq, hen.trans (by decide), by decide, by decide, by decide⟩

end FrrExporter
